import Mathlib

/-!
Verification of the lunch-order tracker's resolution core (`sheets_manager.py`,
`nlp_parser.py`).  The Python code is shallowly embedded: pure functions become
Lean functions, the `SheetsManager` object becomes explicit state passing, and
calls that can raise are modelled with `Option`/result values.  External
library behaviour (`unicodedata`, `gspread`, `datetime`) is modelled explicitly
where the code depends on it; each such model is documented at its definition.
-/

namespace Lunch

/-! ## Calendar dates (`datetime.datetime`, date part only)

The Python code only ever uses the `year`/`month`/`day` fields of `datetime`
values, so a date triple is enough.  `datetime(y, m, d)` validates its
arguments and raises `ValueError` on an invalid combination; `mk_datetime`
models that constructor, with `none` standing for the raised exception. -/

structure Date where
  year : Int
  month : Int
  day : Int
deriving DecidableEq, Repr

/-- Leap-year rule used by Python's `datetime` (proleptic Gregorian). -/
def is_leap (y : Int) : Bool :=
  y % 4 == 0 && (y % 100 != 0 || y % 400 == 0)

/-- Number of days in a month, as enforced by `datetime.datetime`. -/
def days_in_month (y m : Int) : Int :=
  if m = 2 then (if is_leap y then 29 else 28)
  else if m = 4 ∨ m = 6 ∨ m = 9 ∨ m = 11 then 30
  else 31

/-- Argument validation performed by `datetime.datetime(y, m, d)`
(`MINYEAR = 1`, `MAXYEAR = 9999`). -/
def datetime_ok (y m d : Int) : Bool :=
  decide (1 ≤ y) && decide (y ≤ 9999) && decide (1 ≤ m) && decide (m ≤ 12) &&
    decide (1 ≤ d) && decide (d ≤ days_in_month y m)

/-- Model of `datetime.datetime(y, m, d)`: `some` is a constructed date, `none` is the
`ValueError` the constructor raises on an invalid combination. -/
def mk_datetime (y m d : Int) : Option Date :=
  if datetime_ok y m d then some ⟨y, m, d⟩ else none

/-! ## Date resolution (`VietnameseOrderParser.parse_date_from_message`)

Embeds the `intent_result.day_number` branch of `parse_date_from_message`
together with its final default (`return current_date`), for messages that
contain no textual date reference (the regex / "yesterday" fallbacks are not
exercised by any claim).  `current` is the reference date (`datetime.now()` in
the source).  Python's `if intent_result and intent_result.day_number:` treats
a `day_number` of `None` or `0` as absent (falsy).  A `none` result models the
uncaught `ValueError` raised by the `datetime` constructor. -/

def parse_date_from_message (current : Date) (day_number : Option Int) :
    Option Date :=
  match day_number with
  | some target_day =>
    if target_day ≠ 0 then
      if target_day > current.day then
        if current.month = 1 then
          mk_datetime (current.year - 1) 12 target_day
        else
          mk_datetime current.year (current.month - 1) target_day
      else
        mk_datetime current.year current.month target_day
    else some current
  | none => some current

/-- Target month according to the specification's resolution rule: the
reference month when the explicit day is not after the reference day,
otherwise the month before (December when the reference month is January). -/
def target_month (ref : Date) (td : Int) : Int :=
  if td ≤ ref.day then ref.month
  else if ref.month = 1 then 12 else ref.month - 1

/-- Target year according to the specification's resolution rule: decremented
exactly when the explicit day is after the reference day and the reference
month is January. -/
def target_year (ref : Date) (td : Int) : Int :=
  if td ≤ ref.day then ref.year
  else if ref.month = 1 then ref.year - 1 else ref.year

/-- C1: for every reference date and present explicit day hint, resolution
returns the date whose day is the explicit day and whose month/year follow the
rollover rule: reference month when `explicit_day ≤ reference day`, previous
month otherwise, with the year decremented when the reference month is
January.  (The hypotheses say the hint is present — nonzero — and that the
target triple is a constructible calendar date.) -/
theorem date_resolution_rule (ref : Date) (td : Int) (hne : td ≠ 0)
    (hok : datetime_ok (target_year ref td) (target_month ref td) td = true) :
    parse_date_from_message ref (some td) =
      some ⟨target_year ref td, target_month ref td, td⟩ := by
  simp only [parse_date_from_message]
  rw [if_pos hne]
  by_cases hgt : td > ref.day
  · have hle : ¬ td ≤ ref.day := by omega
    by_cases hjan : ref.month = 1
    · simp only [target_year, target_month, if_neg hle, if_pos hjan, if_pos hgt] at hok ⊢
      unfold mk_datetime
      rw [if_pos hok]
    · simp only [target_year, target_month, if_neg hle, if_neg hjan, if_pos hgt] at hok ⊢
      unfold mk_datetime
      rw [if_pos hok]
  · have hle : td ≤ ref.day := by omega
    simp only [target_year, target_month, if_pos hle] at hok ⊢
    rw [if_neg hgt]
    unfold mk_datetime
    rw [if_pos hok]

/-- Witness for C1: the spec's two concrete examples.  Reference 2026-01-15
with explicit day 20 resolves to 2025-12-20 (previous month, year rolled
back); reference 2026-03-15 with explicit day 10 resolves to 2026-03-10. -/
theorem date_resolution_rule_witness :
    parse_date_from_message ⟨2026, 1, 15⟩ (some 20) = some ⟨2025, 12, 20⟩ ∧
    parse_date_from_message ⟨2026, 3, 15⟩ (some 10) = some ⟨2026, 3, 10⟩ := by
  constructor
  · have h := date_resolution_rule ⟨2026, 1, 15⟩ 20 (by decide) (by decide)
    have hy : target_year ⟨2026, 1, 15⟩ 20 = 2025 := by decide
    have hm : target_month ⟨2026, 1, 15⟩ 20 = 12 := by decide
    rw [hy, hm] at h
    exact h
  · have h := date_resolution_rule ⟨2026, 3, 15⟩ 10 (by decide) (by decide)
    have hy : target_year ⟨2026, 3, 15⟩ 10 = 2026 := by decide
    have hm : target_month ⟨2026, 3, 15⟩ 10 = 3 := by decide
    rw [hy, hm] at h
    exact h

/-- C7: the code treats an explicit day of 0 or an absent hint as "no hint"
(first two conjuncts — no invalid date is constructed, the reference date is
returned), but for a target day that does not exist in the target month the
`datetime` constructor's `ValueError` escapes unguarded (the `none` in the
last conjunct models that uncaught exception): with the reference 2026-03-15,
the hint 31 selects February 2026 and crashes instead of surfacing a
resolution failure. -/
theorem date_resolution_invalid_day :
    parse_date_from_message ⟨2026, 3, 15⟩ (some 0) = some ⟨2026, 3, 15⟩ ∧
    parse_date_from_message ⟨2026, 3, 15⟩ none = some ⟨2026, 3, 15⟩ ∧
    parse_date_from_message ⟨2026, 3, 15⟩ (some 31) = none := by
  decide

/-! ## Name normalisation (`remove_vietnamese_accents`)

The Python function runs `unicodedata.normalize("NFD", text)`, drops the
combining marks (category `Mn`), replaces the four non-decomposing d-like
letters by `"d"`, then lowercases and strips the result.  The `unicodedata`
tables are modelled for the function's documented repertoire (the Vietnamese
alphabet): `nfdTable` is the NFD decomposition of every precomposed
Vietnamese letter (identity elsewhere), `mn_marks` the `Mn`-category
characters occurring in those decompositions, and `lower_table` models
`str.lower` on the ASCII letters that decomposition produces (identity
elsewhere). -/

def assoc_lookup {β : Type} : List (Char × β) → Char → Option β
  | [], _ => none
  | p :: rest, c => if p.1 = c then some p.2 else assoc_lookup rest c

/-- NFD decompositions (`unicodedata.normalize("NFD", ·)`) of the precomposed
Vietnamese letters, base character first, combining marks after it. -/
def nfdTable : List (Char × List Char) := [
  ('à', ['a', '\u0300']), ('á', ['a', '\u0301']), ('ả', ['a', '\u0309']),
  ('ã', ['a', '\u0303']), ('ạ', ['a', '\u0323']), ('ă', ['a', '\u0306']),
  ('ằ', ['a', '\u0306', '\u0300']), ('ắ', ['a', '\u0306', '\u0301']),
  ('ẳ', ['a', '\u0306', '\u0309']), ('ẵ', ['a', '\u0306', '\u0303']),
  ('ặ', ['a', '\u0323', '\u0306']), ('â', ['a', '\u0302']),
  ('ầ', ['a', '\u0302', '\u0300']), ('ấ', ['a', '\u0302', '\u0301']),
  ('ẩ', ['a', '\u0302', '\u0309']), ('ẫ', ['a', '\u0302', '\u0303']),
  ('ậ', ['a', '\u0323', '\u0302']), ('è', ['e', '\u0300']),
  ('é', ['e', '\u0301']), ('ẻ', ['e', '\u0309']), ('ẽ', ['e', '\u0303']),
  ('ẹ', ['e', '\u0323']), ('ê', ['e', '\u0302']),
  ('ề', ['e', '\u0302', '\u0300']), ('ế', ['e', '\u0302', '\u0301']),
  ('ể', ['e', '\u0302', '\u0309']), ('ễ', ['e', '\u0302', '\u0303']),
  ('ệ', ['e', '\u0323', '\u0302']), ('ì', ['i', '\u0300']),
  ('í', ['i', '\u0301']), ('ỉ', ['i', '\u0309']), ('ĩ', ['i', '\u0303']),
  ('ị', ['i', '\u0323']), ('ò', ['o', '\u0300']), ('ó', ['o', '\u0301']),
  ('ỏ', ['o', '\u0309']), ('õ', ['o', '\u0303']), ('ọ', ['o', '\u0323']),
  ('ô', ['o', '\u0302']), ('ồ', ['o', '\u0302', '\u0300']),
  ('ố', ['o', '\u0302', '\u0301']), ('ổ', ['o', '\u0302', '\u0309']),
  ('ỗ', ['o', '\u0302', '\u0303']), ('ộ', ['o', '\u0323', '\u0302']),
  ('ơ', ['o', '\u031b']), ('ờ', ['o', '\u031b', '\u0300']),
  ('ớ', ['o', '\u031b', '\u0301']), ('ở', ['o', '\u031b', '\u0309']),
  ('ỡ', ['o', '\u031b', '\u0303']), ('ợ', ['o', '\u031b', '\u0323']),
  ('ù', ['u', '\u0300']), ('ú', ['u', '\u0301']), ('ủ', ['u', '\u0309']),
  ('ũ', ['u', '\u0303']), ('ụ', ['u', '\u0323']), ('ư', ['u', '\u031b']),
  ('ừ', ['u', '\u031b', '\u0300']), ('ứ', ['u', '\u031b', '\u0301']),
  ('ử', ['u', '\u031b', '\u0309']), ('ữ', ['u', '\u031b', '\u0303']),
  ('ự', ['u', '\u031b', '\u0323']), ('ỳ', ['y', '\u0300']),
  ('ý', ['y', '\u0301']), ('ỷ', ['y', '\u0309']), ('ỹ', ['y', '\u0303']),
  ('ỵ', ['y', '\u0323']), ('À', ['A', '\u0300']), ('Á', ['A', '\u0301']),
  ('Ả', ['A', '\u0309']), ('Ã', ['A', '\u0303']), ('Ạ', ['A', '\u0323']),
  ('Ă', ['A', '\u0306']), ('Ằ', ['A', '\u0306', '\u0300']),
  ('Ắ', ['A', '\u0306', '\u0301']), ('Ẳ', ['A', '\u0306', '\u0309']),
  ('Ẵ', ['A', '\u0306', '\u0303']), ('Ặ', ['A', '\u0323', '\u0306']),
  ('Â', ['A', '\u0302']), ('Ầ', ['A', '\u0302', '\u0300']),
  ('Ấ', ['A', '\u0302', '\u0301']), ('Ẩ', ['A', '\u0302', '\u0309']),
  ('Ẫ', ['A', '\u0302', '\u0303']), ('Ậ', ['A', '\u0323', '\u0302']),
  ('È', ['E', '\u0300']), ('É', ['E', '\u0301']), ('Ẻ', ['E', '\u0309']),
  ('Ẽ', ['E', '\u0303']), ('Ẹ', ['E', '\u0323']), ('Ê', ['E', '\u0302']),
  ('Ề', ['E', '\u0302', '\u0300']), ('Ế', ['E', '\u0302', '\u0301']),
  ('Ể', ['E', '\u0302', '\u0309']), ('Ễ', ['E', '\u0302', '\u0303']),
  ('Ệ', ['E', '\u0323', '\u0302']), ('Ì', ['I', '\u0300']),
  ('Í', ['I', '\u0301']), ('Ỉ', ['I', '\u0309']), ('Ĩ', ['I', '\u0303']),
  ('Ị', ['I', '\u0323']), ('Ò', ['O', '\u0300']), ('Ó', ['O', '\u0301']),
  ('Ỏ', ['O', '\u0309']), ('Õ', ['O', '\u0303']), ('Ọ', ['O', '\u0323']),
  ('Ô', ['O', '\u0302']), ('Ồ', ['O', '\u0302', '\u0300']),
  ('Ố', ['O', '\u0302', '\u0301']), ('Ổ', ['O', '\u0302', '\u0309']),
  ('Ỗ', ['O', '\u0302', '\u0303']), ('Ộ', ['O', '\u0323', '\u0302']),
  ('Ơ', ['O', '\u031b']), ('Ờ', ['O', '\u031b', '\u0300']),
  ('Ớ', ['O', '\u031b', '\u0301']), ('Ở', ['O', '\u031b', '\u0309']),
  ('Ỡ', ['O', '\u031b', '\u0303']), ('Ợ', ['O', '\u031b', '\u0323']),
  ('Ù', ['U', '\u0300']), ('Ú', ['U', '\u0301']), ('Ủ', ['U', '\u0309']),
  ('Ũ', ['U', '\u0303']), ('Ụ', ['U', '\u0323']), ('Ư', ['U', '\u031b']),
  ('Ừ', ['U', '\u031b', '\u0300']), ('Ứ', ['U', '\u031b', '\u0301']),
  ('Ử', ['U', '\u031b', '\u0309']), ('Ữ', ['U', '\u031b', '\u0303']),
  ('Ự', ['U', '\u031b', '\u0323']), ('Ỳ', ['Y', '\u0300']),
  ('Ý', ['Y', '\u0301']), ('Ỷ', ['Y', '\u0309']), ('Ỹ', ['Y', '\u0303']),
  ('Ỵ', ['Y', '\u0323'])]

/-- NFD decomposition of one character: table entry, or the character itself
(`unicodedata.normalize("NFD", ·)`, modelled on the Vietnamese repertoire). -/
def nfd_char (c : Char) : List Char :=
  match assoc_lookup nfdTable c with
  | some l => l
  | none => [c]

/-- The category-`Mn` (combining mark) characters of the repertoire. -/
def mn_marks : List Char :=
  ['\u0300', '\u0301', '\u0302', '\u0303', '\u0306', '\u0309', '\u031b',
   '\u0323']

/-- Model of `unicodedata.category(c) == "Mn"`, modelled on the repertoire. -/
def is_mn (c : Char) : Bool := mn_marks.contains c

/-- The four characters the Python code replaces by hand. -/
def d_variants : List Char := ['đ', 'Đ', 'ð', 'Ð']

/-- The chained `str.replace` calls: each of `đ Đ ð Ð` becomes `"d"` (the
replacements are single characters, so the string replace is a map). -/
def replace_special (c : Char) : Char :=
  if d_variants.contains c then 'd' else c

/-- Model of `str.lower`, restricted on the ASCII letters (the only case-carrying
characters left after decomposition and the `đ`-replacements). -/
def lower_table : List (Char × Char) :=
  [('A', 'a'), ('B', 'b'), ('C', 'c'), ('D', 'd'), ('E', 'e'), ('F', 'f'),
   ('G', 'g'), ('H', 'h'), ('I', 'i'), ('J', 'j'), ('K', 'k'), ('L', 'l'),
   ('M', 'm'), ('N', 'n'), ('O', 'o'), ('P', 'p'), ('Q', 'q'), ('R', 'r'),
   ('S', 's'), ('T', 't'), ('U', 'u'), ('V', 'v'), ('W', 'w'), ('X', 'x'),
   ('Y', 'y'), ('Z', 'z')]

def ascii_lower (c : Char) : Char :=
  match assoc_lookup lower_table c with
  | some l => l
  | none => c

/-- Python `str.strip` strips leading and trailing whitespace. -/
def is_ws (c : Char) : Bool := c.isWhitespace

def strip_list (l : List Char) : List Char :=
  ((l.dropWhile is_ws).reverse.dropWhile is_ws).reverse

/-- The accent-removal pipeline before the final `strip`: decompose, drop the
`Mn` marks, apply the `đ`-replacements, lowercase. -/
def accent_strip_core (l : List Char) : List Char :=
  (((l.flatMap nfd_char).filter (fun c => !is_mn c)).map replace_special).map
    ascii_lower

def normalize_chars (l : List Char) : List Char :=
  strip_list (accent_strip_core l)

/-- Embeds `remove_vietnamese_accents` (`sheets_manager.py`): NFD-decompose, drop
combining marks, replace `đ Đ ð Ð` by `d`, lowercase, strip. -/
def remove_vietnamese_accents (s : String) : String :=
  String.mk (normalize_chars s.data)

/-! ### Idempotence infrastructure -/

/-- A character every stage of the pipeline leaves alone. -/
def good_char (c : Char) : Bool :=
  decide (nfd_char c = [c]) && !is_mn c && decide (replace_special c = c) &&
    decide (ascii_lower c = c)

theorem assoc_lookup_mem {β : Type} (c : Char) (b : β) :
    ∀ tbl : List (Char × β), assoc_lookup tbl c = some b → (c, b) ∈ tbl := by
  intro tbl
  induction tbl with
  | nil => intro h; simp [assoc_lookup] at h
  | cons p rest ih =>
    intro h
    simp only [assoc_lookup] at h
    by_cases hp : p.1 = c
    · rw [if_pos hp] at h
      have hb : p.2 = b := Option.some.inj h
      have hpe : p = (c, b) := by
        rcases p with ⟨k, v⟩
        simp only at hp hb
        rw [hp, hb]
      rw [← hpe]
      exact List.mem_cons_self _ _
    · rw [if_neg hp] at h
      exact List.mem_cons_of_mem _ (ih h)

theorem assoc_lookup_none {β : Type} (c : Char) :
    ∀ tbl : List (Char × β), (∀ p ∈ tbl, p.1 ≠ c) → assoc_lookup tbl c = none := by
  intro tbl
  induction tbl with
  | nil => intro _; rfl
  | cons p rest ih =>
    intro h
    simp only [assoc_lookup]
    rw [if_neg (h p (List.mem_cons_self _ _))]
    exact ih fun q hq => h q (List.mem_cons_of_mem _ hq)

/-- Every key of `nfdTable` is a non-ASCII letter (code point ≥ 192). -/
theorem nfd_keys_large :
    nfdTable.all (fun p => decide (192 ≤ p.1.toNat)) = true := by decide

theorem nfd_char_of_small (c : Char) (h : c.toNat < 192) : nfd_char c = [c] := by
  have hnone : assoc_lookup nfdTable c = none := by
    apply assoc_lookup_none
    intro p hp hc
    have h192 := of_decide_eq_true (List.all_eq_true.mp nfd_keys_large p hp)
    rw [hc] at h192
    omega
  simp [nfd_char, hnone]

theorem mn_marks_large :
    mn_marks.all (fun m => decide (192 ≤ m.toNat)) = true := by decide

theorem d_variants_large :
    d_variants.all (fun m => decide (192 ≤ m.toNat)) = true := by decide

theorem contains_eq_false_of_small (l : List Char) (c : Char)
    (hall : l.all (fun m => decide (192 ≤ m.toNat)) = true)
    (hc : c.toNat < 192) : l.contains c = false := by
  by_contra hcon
  have hmem : c ∈ l := by
    have := eq_true_of_ne_false hcon
    simpa using this
  have := of_decide_eq_true (List.all_eq_true.mp hall c hmem)
  omega

set_option maxRecDepth 8192 in
/-- The table's decompositions consist of combining marks (later filtered
out) and characters that the rest of the pipeline leaves fixed. -/
theorem nfdTable_outputs_ok :
    nfdTable.all
      (fun p => p.2.all
        (fun d => is_mn d || good_char (ascii_lower (replace_special d)))) =
      true := by decide

/-- Every output of the lowercase table is fixed by the pipeline. -/
theorem lower_outputs_good :
    lower_table.all (fun p => good_char p.2) = true := by decide

/-- Core lemma: whatever character a pipeline stage can emit is left fixed by
a second run of the pipeline. -/
theorem key_good (e d : Char) (hd : d ∈ nfd_char e) (hm : is_mn d = false) :
    good_char (ascii_lower (replace_special d)) = true := by
  cases htab : assoc_lookup nfdTable e with
  | some l =>
    have hmem := assoc_lookup_mem e l nfdTable htab
    have hinner := List.all_eq_true.mp nfdTable_outputs_ok (e, l) hmem
    have hd' : d ∈ l := by
      simp only [nfd_char, htab] at hd
      exact hd
    have hor := List.all_eq_true.mp hinner d hd'
    rw [hm] at hor
    simpa using hor
  | none =>
    have hfix : nfd_char e = [e] := by simp [nfd_char, htab]
    have hde : d = e := by
      rw [hfix] at hd
      simpa using hd
    subst hde
    by_cases hrep : d_variants.contains d = true
    · rw [replace_special, if_pos hrep]
      decide
    · rw [replace_special, if_neg hrep]
      cases hlow : assoc_lookup lower_table d with
      | some b =>
        have hmem := assoc_lookup_mem d b lower_table hlow
        have := List.all_eq_true.mp lower_outputs_good (d, b) hmem
        simpa [ascii_lower, hlow] using this
      | none =>
        simp only [ascii_lower, hlow]
        have hnotmem : d ∉ d_variants := by simpa using hrep
        simp [good_char, nfd_char, htab, hm, replace_special, hrep,
          ascii_lower, hlow, hnotmem]

theorem core_all_good (l : List Char) :
    ∀ c ∈ accent_strip_core l, good_char c = true := by
  intro c hc
  simp only [accent_strip_core, List.mem_map, List.mem_filter,
    List.mem_flatMap] at hc
  obtain ⟨b, ⟨d, ⟨⟨e, _, hde⟩, hdm⟩, rfl⟩, rfl⟩ := hc
  exact key_good e d hde (by simpa using hdm)

theorem core_append (a b : List Char) :
    accent_strip_core (a ++ b) = accent_strip_core a ++ accent_strip_core b := by
  simp [accent_strip_core]

theorem core_fixed (l : List Char) (h : ∀ c ∈ l, good_char c = true) :
    accent_strip_core l = l := by
  induction l with
  | nil => rfl
  | cons c t ih =>
    have hc := h c (List.mem_cons_self _ _)
    simp only [good_char, Bool.and_eq_true, decide_eq_true_eq,
      Bool.not_eq_true'] at hc
    have hsplit : accent_strip_core (c :: t) =
        accent_strip_core [c] ++ accent_strip_core t := by
      simpa using core_append [c] t
    rw [hsplit, ih fun d hd => h d (List.mem_cons_of_mem _ hd)]
    have hone : accent_strip_core [c] = [c] := by
      simp [accent_strip_core, hc.1.1.1, hc.1.1.2, hc.1.2, hc.2]
    rw [hone]
    rfl

theorem dropWhile_idem {α : Type} (p : α → Bool) (l : List α) :
    (l.dropWhile p).dropWhile p = l.dropWhile p := by
  cases h : l.dropWhile p with
  | nil => rfl
  | cons a t =>
    have h2 := List.head?_dropWhile_not p l
    rw [h] at h2
    simp only [List.head?_cons] at h2
    simp [List.dropWhile_cons, h2]

theorem strip_list_idem (l : List Char) :
    strip_list (strip_list l) = strip_list l := by
  unfold strip_list
  set A := l.dropWhile is_ws with hA
  set B := A.reverse.dropWhile is_ws with hB
  have h1 : B.reverse.dropWhile is_ws = B.reverse := by
    cases hBr : B.reverse with
    | nil => simp
    | cons a t =>
      have hpre : B.reverse <+: A := by
        have hsuf : B <:+ A.reverse := by
          rw [hB]
          exact List.dropWhile_suffix _
        have := Iff.mpr List.reverse_prefix hsuf
        rwa [List.reverse_reverse] at this
      obtain ⟨s, hs⟩ := hpre
      have hha : A.head? = some a := by
        rw [← hs, hBr]
        simp
      have h2 := List.head?_dropWhile_not is_ws l
      rw [← hA] at h2
      rw [hha] at h2
      have h2' : is_ws a = false := h2
      simp [List.dropWhile_cons, h2']
  rw [h1, List.reverse_reverse, hB, dropWhile_idem]

theorem strip_list_sublist (l : List Char) :
    List.Sublist (strip_list l) l := by
  unfold strip_list
  have h1 : List.Sublist ((l.dropWhile is_ws).reverse.dropWhile is_ws)
      (l.dropWhile is_ws).reverse := List.dropWhile_sublist _
  have h2 := List.reverse_sublist.mpr h1
  rw [List.reverse_reverse] at h2
  exact h2.trans (List.dropWhile_sublist _)

theorem normalize_chars_idem (l : List Char) :
    normalize_chars (normalize_chars l) = normalize_chars l := by
  unfold normalize_chars
  have hgood : ∀ c ∈ strip_list (accent_strip_core l), good_char c = true :=
    fun c hc => core_all_good l c ((strip_list_sublist _).subset hc)
  rw [core_fixed _ hgood, strip_list_idem]

/-- C9: name normalisation is idempotent — normalising an already-normalised
string changes nothing, for every input string. -/
theorem normalize_idempotent (s : String) :
    remove_vietnamese_accents (remove_vietnamese_accents s) =
      remove_vietnamese_accents s := by
  show String.mk (normalize_chars (normalize_chars s.data)) =
    String.mk (normalize_chars s.data)
  exact congrArg String.mk (normalize_chars_idem s.data)

/-! ## String helpers shared with the sheets layer -/

/-- Python `str.strip()` on a cell value. -/
def py_strip (s : String) : String := String.mk (strip_list s.data)

/-- Helper for `py_split`: accumulate the current token (reversed) and emit
it at each whitespace run or at the end. -/
def split_tokens : List Char → List Char → List String
  | [], acc => if acc.isEmpty then [] else [String.mk acc.reverse]
  | c :: rest, acc =>
    if is_ws c then
      (if acc.isEmpty then [] else [String.mk acc.reverse]) ++
        split_tokens rest []
    else split_tokens rest (c :: acc)

/-- Python `str.split()` with no argument: split on whitespace runs,
discarding empty pieces. -/
def py_split (s : String) : List String := split_tokens s.data []

/-- Python `str.upper()`, modelled on ASCII (the stored markers are
`"TRUE"`/`"FALSE"` in any ASCII case). -/
def upper_str (s : String) : String := String.mk (s.data.map Char.toUpper)

/-! ## The spreadsheet model (`SheetsManager` / `gspread`)

A worksheet is its title plus a row-major grid of cell strings (row 1 is the
header row, column 1 the names column).  The `SheetsManager` object state is
the spreadsheet's list of tabs (`self.spreadsheet`), the cached worksheet
handle (`self.worksheet`, identified by its title), and the
`auto_detect_month` flag.  `write_fails` models the external `update_cell`
API call raising (network/auth error); the code catches that exception and
returns `False`.  Each state-touching operation returns its result, the new
state, and the list of external open/write calls it performed (reads are not
logged; a logged `writeCell` is a write that took effect). -/

structure Worksheet where
  title : String
  cells : List (List String)
deriving DecidableEq, Repr

structure SheetsState where
  tabs : List Worksheet
  current : Option String
  auto_detect_month : Bool
  write_fails : Bool
deriving DecidableEq, Repr

inductive SheetOp where
  | openTab : String → SheetOp
  | writeCell : String → Nat → Nat → String → SheetOp
deriving DecidableEq, Repr

def count_opens (ops : List SheetOp) : Nat :=
  (ops.filter fun o => match o with
    | SheetOp.openTab _ => true
    | _ => false).length

def count_writes (ops : List SheetOp) : Nat :=
  (ops.filter fun o => match o with
    | SheetOp.writeCell _ _ _ _ => true
    | _ => false).length

/-- Embeds `SheetsManager._get_sheet_name_for_date`: the tab for a date's month. -/
def get_sheet_name_for_date (d : Date) : String :=
  "Tháng " ++ toString d.month

/-- Model of `self.spreadsheet.worksheet(name)`: open a tab by exact title. -/
def find_worksheet (tabs : List Worksheet) (name : String) : Option Worksheet :=
  tabs.find? (fun w => w.title == name)

/-- Model of `worksheet.row_values(1)`: the header row. -/
def header_row (ws : Worksheet) : List String := ws.cells.headD []

/-- Model of `worksheet.col_values(c)` (1-based): one value per row, blank when the
row is shorter than `c`. -/
def col_values (ws : Worksheet) (c : Nat) : List String :=
  ws.cells.map (fun r => r.getD (c - 1) "")

/-- The worksheet the cached handle currently refers to. -/
def current_worksheet (st : SheetsState) : Option Worksheet :=
  st.current.bind (find_worksheet st.tabs)

/-- Embeds `SheetsManager._ensure_correct_worksheet`: with `auto_detect_month` off it
does nothing; otherwise it keeps the cached handle when its title already
matches the required tab name, and else opens the tab by name, replacing the
cache on success and leaving it unchanged when the open raises (returning
`False`). -/
def ensure_correct_worksheet (st : SheetsState) (d : Date) :
    Bool × SheetsState × List SheetOp :=
  if st.auto_detect_month = false then (true, st, [])
  else
    let required := get_sheet_name_for_date d
    if st.current = some required then (true, st, [])
    else
      match find_worksheet st.tabs required with
      | some _ =>
        (true, { st with current := some required }, [SheetOp.openTab required])
      | none => (false, st, [SheetOp.openTab required])

/-! ## Cell location (`get_row_for_user`, `get_column_for_date`) -/

/-- Needle-is-a-leading-block test used by the substring check. -/
def starts_chars : List Char → List Char → Bool
  | [], _ => true
  | _ :: _, [] => false
  | a :: as, b :: bs => a == b && starts_chars as bs

/-- Python's `needle in hay` substring containment on code points. -/
def substring_chars (needle : List Char) : List Char → Bool
  | [] => needle.isEmpty
  | b :: t => starts_chars needle (b :: t) || substring_chars needle t

/-- One loop iteration's test in `get_row_for_user`: skip blank cells, then
try exact / substring / token-subset matching of the normalised names. -/
def row_search (q : String) : List String → Nat → Option Nat
  | [], _ => none
  | cell :: rest, idx =>
    if (strip_list cell.data).isEmpty then row_search q rest (idx + 1)
    else
      let cn := remove_vietnamese_accents cell
      if cn = q then some (idx + 1)
      else if substring_chars q.data cn.data then some (idx + 1)
      else if (py_split q).all (fun w => (py_split cn).contains w) then
        some (idx + 1)
      else row_search q rest (idx + 1)

/-- Embeds `SheetsManager.get_row_for_user`: scan the first column, returning the
1-based index of the first row matched by any of the three strategies. -/
def get_row_for_user (ws : Worksheet) (user_name : String) : Option Nat :=
  row_search (remove_vietnamese_accents user_name) (col_values ws 1) 0

/-- Python `f"{n:02d}"`. -/
def pad2 (n : Int) : String :=
  if 0 ≤ n ∧ n < 10 then "0" ++ toString n else toString n

/-- The `date_formats` list built in `get_column_for_date` (the last three
entries are the `strftime` calls; `%Y`/`%d`/`%m` are modelled as the
unpadded year and zero-padded day/month, identical for the years the code
handles). -/
def date_formats (d : Date) : List String :=
  [toString d.day,
   pad2 d.day,
   toString d.day ++ "/" ++ toString d.month ++ "/" ++ toString d.year,
   pad2 d.day ++ "/" ++ pad2 d.month ++ "/" ++ toString d.year,
   toString d.month ++ "/" ++ toString d.day ++ "/" ++ toString d.year,
   pad2 d.month ++ "/" ++ pad2 d.day ++ "/" ++ toString d.year,
   toString d.day ++ "/" ++ toString d.month,
   pad2 d.day ++ "/" ++ pad2 d.month,
   pad2 d.day ++ "/" ++ pad2 d.month ++ "/" ++ toString d.year,
   pad2 d.month ++ "/" ++ pad2 d.day ++ "/" ++ toString d.year,
   pad2 d.day ++ "/" ++ pad2 d.month]

/-- One loop iteration's test in `get_column_for_date`: strip the cell, skip
it when empty, accept it when it equals one of the formats or the bare
(padded or unpadded) day number. -/
def column_search (formats : List String) (day_number day_padded : String) :
    List String → Nat → Option Nat
  | [], _ => none
  | cell :: rest, idx =>
    let cv := py_strip cell
    if cv = "" then column_search formats day_number day_padded rest (idx + 1)
    else if formats.contains cv then some (idx + 1)
    else if cv = day_number ∨ cv = day_padded then some (idx + 1)
    else column_search formats day_number day_padded rest (idx + 1)

/-- Embeds `SheetsManager.get_column_for_date`: scan the header row for the first
cell whose trimmed text matches the date. -/
def get_column_for_date (ws : Worksheet) (d : Date) : Option Nat :=
  column_search (date_formats d) (toString d.day) (pad2 d.day)
    (header_row ws) 0

/-! ## Mutation (`mark_order`) and the read-only operations -/

/-- Model of `worksheet.update_cell(row, col, value)` on the grid (1-based); cells
outside the grid are left as-is (no claim exercises that case). -/
def update_cell_ws (ws : Worksheet) (row col : Nat) (v : String) : Worksheet :=
  { ws with
    cells := ws.cells.set (row - 1)
      ((ws.cells.getD (row - 1) []).set (col - 1) v) }

def update_tabs (tabs : List Worksheet) (name : String) (row col : Nat)
    (v : String) : List Worksheet :=
  tabs.map (fun w => if w.title = name then update_cell_ws w row col v else w)

/-- Embeds `SheetsManager.mark_order`: ensure the month tab, find the user row and
the date column, then write `"TRUE"`/`"FALSE"`; any failure (including the
write call raising, and the cached handle being unusable) is caught and
collapsed to the boolean `false`. -/
def mark_order (st : SheetsState) (user_name : String) (has_order : Bool)
    (d : Date) : Bool × SheetsState × List SheetOp :=
  let e := ensure_correct_worksheet st d
  let st1 := e.2.1
  let ops := e.2.2
  if e.1 = false then (false, st1, ops)
  else
    match current_worksheet st1 with
    | none => (false, st1, ops)
    | some ws =>
      match get_row_for_user ws user_name with
      | none => (false, st1, ops)
      | some row =>
        match get_column_for_date ws d with
        | none => (false, st1, ops)
        | some col =>
          if st1.write_fails then (false, st1, ops)
          else
            let v := if has_order then "TRUE" else "FALSE"
            (true,
             { st1 with tabs := update_tabs st1.tabs ws.title row col v },
             ops ++ [SheetOp.writeCell ws.title row col v])

/-- Model of `worksheet.cell(row, col).value`, with `""` for an absent value. -/
def cell_value (ws : Worksheet) (row col : Nat) : String :=
  (ws.cells.getD (row - 1) []).getD (col - 1) ""

/-- Embeds `SheetsManager.get_order_status`: resolve row and column against the
cached worksheet (no tab re-selection), read one cell, and map it to
`TRUE`/`FALSE`/unknown.  No state change, no open or write calls. -/
def get_order_status (st : SheetsState) (user_name : String) (d : Date) :
    Option Bool × SheetsState × List SheetOp :=
  match current_worksheet st with
  | none => (none, st, [])
  | some ws =>
    match get_row_for_user ws user_name with
    | none => (none, st, [])
    | some row =>
      match get_column_for_date ws d with
      | none => (none, st, [])
      | some col =>
        let v := cell_value ws row col
        (if v ≠ "" ∧ upper_str v = "TRUE" then some true
         else if v ≠ "" ∧ upper_str v = "FALSE" then some false
         else none, st, [])

/-- The per-row loop of `get_daily_summary`: skip blank names; a row has an
order exactly when its status cell exists and uppercases to `"TRUE"`. -/
def summary_rows (statuses : List String) : List String → Nat →
    List (String × Bool)
  | [], _ => []
  | name :: rest, i =>
    if (strip_list name.data).isEmpty then summary_rows statuses rest (i + 1)
    else
      (name, decide (i < statuses.length) &&
        (upper_str (statuses.getD i "") == "TRUE")) ::
        summary_rows statuses rest (i + 1)

/-- Embeds `SheetsManager.get_daily_summary`: read the names column and the date's
status column of the cached worksheet (no tab re-selection) and pair them
up.  No state change, no open or write calls. -/
def get_daily_summary (st : SheetsState) (d : Date) :
    List (String × Bool) × SheetsState × List SheetOp :=
  match current_worksheet st with
  | none => ([], st, [])
  | some ws =>
    match get_column_for_date ws d with
    | none => ([], st, [])
    | some col =>
      let names := (col_values ws 1).drop 1
      let statuses := (col_values ws col).drop 1
      (summary_rows statuses names 0, st, [])

/-! ## C2: first-match row lookup -/

/-- The specification's row-match predicate: a non-blank stored cell whose
normalised text is exactly the normalised query, contains it as a substring,
or contains every whitespace-delimited token of it among its own tokens. -/
def user_row_matches (q : String) (cell : String) : Bool :=
  !(strip_list cell.data).isEmpty &&
    (decide (remove_vietnamese_accents cell = q) ||
     substring_chars q.data (remove_vietnamese_accents cell).data ||
     (py_split q).all
       (fun w => (py_split (remove_vietnamese_accents cell)).contains w))

theorem findIdx?_cons_elim {α : Type} (p : α → Bool) (c : α) (t : List α) :
    (c :: t).findIdx? p =
      if p c = true then some 0
      else (t.findIdx? p).map (fun k => k + 1) := by
  rw [List.findIdx?_cons]
  by_cases hp : p c = true
  · rw [if_pos hp, if_pos hp]
  · rw [if_neg hp, if_neg hp, List.findIdx?_start_succ]

theorem row_search_eq (q : String) :
    ∀ (l : List String) (n : Nat),
      row_search q l n =
        (List.findIdx? (user_row_matches q) l).map (fun i => i + n + 1) := by
  intro l
  induction l with
  | nil => intro n; rfl
  | cons c t ih =>
    intro n
    rw [findIdx?_cons_elim]
    by_cases hb : (strip_list c.data).isEmpty = true
    · have hp : ¬ user_row_matches q c = true := by
        simp [user_row_matches, hb]
      rw [if_neg hp]
      simp only [row_search]
      rw [if_pos hb, ih (n + 1), Option.map_map]
      congr 1
      funext k
      simp only [Function.comp]
      omega
    · simp only [row_search]
      rw [if_neg hb]
      by_cases h1 : remove_vietnamese_accents c = q
      · have hp : user_row_matches q c = true := by
          simp [user_row_matches, hb, h1]
        rw [if_pos h1, if_pos hp]
        simp
      · rw [if_neg h1]
        by_cases h2 : substring_chars q.data
            (remove_vietnamese_accents c).data = true
        · have hp : user_row_matches q c = true := by
            simp [user_row_matches, hb, h2]
          rw [if_pos h2, if_pos hp]
          simp
        · rw [if_neg h2]
          by_cases h3 : ((py_split q).all
              (fun w => (py_split (remove_vietnamese_accents c)).contains w)) =
              true
          · have h3' : ∀ x ∈ py_split q,
                x ∈ py_split (remove_vietnamese_accents c) := by simpa using h3
            have hp : user_row_matches q c = true := by
              simp [user_row_matches, hb]
              exact Or.inr h3'
            rw [if_pos h3, if_pos hp]
            simp
          · have h3' : ¬ ∀ x ∈ py_split q,
                x ∈ py_split (remove_vietnamese_accents c) := by simpa using h3
            push_neg at h3'
            have hp : ¬ user_row_matches q c = true := by
              simp [user_row_matches, hb, h1, h2]
              exact h3'
            rw [if_neg h3, if_neg hp, ih (n + 1), Option.map_map]
            congr 1
            funext k
            simp only [Function.comp]
            omega

/-- C2: `get_row_for_user` returns exactly the 1-based index of the first
first-column cell satisfying the exact / substring / token-subset match on
normalised names (`none` when no row matches, blank cells never matching);
in particular, with stored names `["Thai", "Nguyen Duy Thai"]`, the query
`"Duy Thai"` resolves to row 2 (`"Nguyen Duy Thai"`), not row 1. -/
theorem get_row_first_match (ws : Worksheet) (u : String) :
    get_row_for_user ws u =
      (List.findIdx? (user_row_matches (remove_vietnamese_accents u))
        (col_values ws 1)).map (fun i => i + 1) ∧
    get_row_for_user ⟨"t", [["Thai"], ["Nguyen Duy Thai"]]⟩ "Duy Thai" =
      some 2 := by
  constructor
  · unfold get_row_for_user
    exact row_search_eq _ _ 0
  · decide

/-! ## C8: tab naming -/

/-- Counterexample to C8 as stated: the tab-name function produces the
Vietnamese `"Tháng 1"`, not the literal string `"Month 1"` the claim
gives. -/
theorem tab_name_not_month :
    get_sheet_name_for_date ⟨2026, 1, 23⟩ = "Tháng 1" ∧
    get_sheet_name_for_date ⟨2026, 1, 23⟩ ≠ "Month 1" := by decide

/-- C8 (amended): for every date the pure tab-naming function returns
`"Tháng {monthNumber}"`, the month number rendered without padding (no
leading zero, at most two digits) for months 1–12. -/
theorem tab_name_format (d : Date) (h1 : 1 ≤ d.month) (h2 : d.month ≤ 12) :
    get_sheet_name_for_date d = "Tháng " ++ toString d.month ∧
    (toString d.month).data.head? ≠ some '0' ∧
    (toString d.month).data.length ≤ 2 := by
  obtain ⟨y, m, dd⟩ := d
  dsimp only at h1 h2 ⊢
  refine ⟨rfl, ?_⟩
  interval_cases m <;> exact ⟨by decide, by decide⟩

/-- Witness for C8 (amended) at January. -/
theorem tab_name_format_witness :
    get_sheet_name_for_date ⟨2026, 1, 23⟩ =
      "Tháng " ++ toString (Date.mk 2026 1 23).month :=
  (tab_name_format ⟨2026, 1, 23⟩ (by decide) (by decide)).1

/-! ## C3: date-column lookup -/

/-- The claim's spelling set read literally: bare day (unpadded and padded)
plus day/month/year *and month/day/year* orders, padded and unpadded, each
with full *or omitted* year. -/
def claim_spellings (d : Date) : List String :=
  [toString d.day,
   pad2 d.day,
   toString d.day ++ "/" ++ toString d.month ++ "/" ++ toString d.year,
   pad2 d.day ++ "/" ++ pad2 d.month ++ "/" ++ toString d.year,
   toString d.month ++ "/" ++ toString d.day ++ "/" ++ toString d.year,
   pad2 d.month ++ "/" ++ pad2 d.day ++ "/" ++ toString d.year,
   toString d.day ++ "/" ++ toString d.month,
   pad2 d.day ++ "/" ++ pad2 d.month,
   toString d.month ++ "/" ++ toString d.day,
   pad2 d.month ++ "/" ++ pad2 d.day]

/-- The spelling set the code actually accepts: as `claim_spellings` but with
the month/day order only in its full-year forms. -/
def amended_spellings (d : Date) : List String :=
  [toString d.day,
   pad2 d.day,
   toString d.day ++ "/" ++ toString d.month ++ "/" ++ toString d.year,
   pad2 d.day ++ "/" ++ pad2 d.month ++ "/" ++ toString d.year,
   toString d.month ++ "/" ++ toString d.day ++ "/" ++ toString d.year,
   pad2 d.month ++ "/" ++ pad2 d.day ++ "/" ++ toString d.year,
   toString d.day ++ "/" ++ toString d.month,
   pad2 d.day ++ "/" ++ pad2 d.month]

/-- A header cell counts when its trimmed text is one of the accepted
spellings. -/
def spec_col_match (d : Date) (cell : String) : Bool :=
  (amended_spellings d).contains (py_strip cell)

/-- Counterexample to C3 as stated: for target date 2026-01-23 the header
cell `"1/23"` (month/day, year omitted) is one of the claim's accepted
spellings, yet the code finds no date column in the header `["1/23"]`. -/
theorem date_column_claim_counterexample :
    "1/23" ∈ claim_spellings ⟨2026, 1, 23⟩ ∧
    py_strip "1/23" = "1/23" ∧
    get_column_for_date ⟨"Tháng 1", [["1/23"]]⟩ ⟨2026, 1, 23⟩ = none := by
  decide

theorem formats_mem (d : Date) (s : String) :
    (s ∈ date_formats d ∨ s = toString d.day ∨ s = pad2 d.day) ↔
      s ∈ amended_spellings d := by
  simp only [date_formats, amended_spellings, List.mem_cons,
    List.not_mem_nil, or_false]
  tauto

theorem append_slash_ne_empty (a b : String) : a ++ "/" ++ b ≠ "" := by
  intro h
  have hlen := congrArg String.length h
  rw [String.length_append, String.length_append] at hlen
  have h1 : ("/" : String).length = 1 := rfl
  have h2 : ("" : String).length = 0 := rfl
  rw [h1, h2] at hlen
  omega

theorem day_str_ne_empty (n : Int) (h1 : 1 ≤ n) (h2 : n ≤ 31) :
    toString n ≠ "" ∧ pad2 n ≠ "" := by
  interval_cases n <;> exact ⟨by decide, by decide⟩

theorem empty_not_spelling (d : Date) (h1 : 1 ≤ d.day) (h2 : d.day ≤ 31) :
    "" ∉ amended_spellings d := by
  have hd := day_str_ne_empty d.day h1 h2
  intro hmem
  simp only [amended_spellings, List.mem_cons, List.not_mem_nil,
    or_false] at hmem
  rcases hmem with h | h | h | h | h | h | h | h
  · exact hd.1 h.symm
  · exact hd.2 h.symm
  · exact append_slash_ne_empty _ _ h.symm
  · exact append_slash_ne_empty _ _ h.symm
  · exact append_slash_ne_empty _ _ h.symm
  · exact append_slash_ne_empty _ _ h.symm
  · exact append_slash_ne_empty _ _ h.symm
  · exact append_slash_ne_empty _ _ h.symm

theorem column_search_eq (d : Date) (hne : "" ∉ amended_spellings d) :
    ∀ (l : List String) (n : Nat),
      column_search (date_formats d) (toString d.day) (pad2 d.day) l n =
        (List.findIdx? (spec_col_match d) l).map (fun i => i + n + 1) := by
  intro l
  induction l with
  | nil => intro n; rfl
  | cons c t ih =>
    intro n
    rw [findIdx?_cons_elim]
    by_cases hcv : py_strip c = ""
    · have hp : ¬ spec_col_match d c = true := by
        simp only [spec_col_match, hcv]
        simpa using hne
      rw [if_neg hp]
      simp only [column_search]
      rw [if_pos hcv, ih (n + 1), Option.map_map]
      congr 1
      funext k
      simp only [Function.comp]
      omega
    · simp only [column_search]
      rw [if_neg hcv]
      by_cases hf : (date_formats d).contains (py_strip c) = true
      · have hp : spec_col_match d c = true := by
          have hmem : py_strip c ∈ date_formats d := by simpa using hf
          have hin : py_strip c ∈ amended_spellings d :=
            (formats_mem d _).mp (Or.inl hmem)
          simpa [spec_col_match] using hin
        rw [if_pos hf, if_pos hp]
        simp
      · rw [if_neg hf]
        by_cases hd : py_strip c = toString d.day ∨ py_strip c = pad2 d.day
        · have hp : spec_col_match d c = true := by
            have hin : py_strip c ∈ amended_spellings d :=
              (formats_mem d _).mp (Or.inr hd)
            simpa [spec_col_match] using hin
          rw [if_pos hd, if_pos hp]
          simp
        · have hp : ¬ spec_col_match d c = true := by
            simp only [spec_col_match]
            intro hcon
            have hmem : py_strip c ∈ amended_spellings d := by simpa using hcon
            rcases (formats_mem d _).mpr hmem with h | h
            · exact hf (by simpa using h)
            · exact hd h
          rw [if_neg hd, if_neg hp, ih (n + 1), Option.map_map]
          congr 1
          funext k
          simp only [Function.comp]
          omega

/-- C3 (amended): `get_column_for_date` returns exactly the 1-based index of
the first header cell whose trimmed text is one of the accepted spellings —
bare day (unpadded or padded), day/month/year and month/day/year padded and
unpadded with the full year, and day/month (not month/day) with the year
omitted — `none` when no cell matches; in particular the single-cell headers
`"23"` and `"23/01/2026"` each match 2026-01-23. -/
theorem date_column_first_match (ws : Worksheet) (d : Date)
    (h1 : 1 ≤ d.day) (h2 : d.day ≤ 31) :
    get_column_for_date ws d =
      (List.findIdx? (spec_col_match d) (header_row ws)).map
        (fun i => i + 1) ∧
    get_column_for_date ⟨"t", [["23"]]⟩ ⟨2026, 1, 23⟩ = some 1 ∧
    get_column_for_date ⟨"t", [["23/01/2026"]]⟩ ⟨2026, 1, 23⟩ = some 1 := by
  refine ⟨?_, by decide, by decide⟩
  unfold get_column_for_date
  exact column_search_eq d (empty_not_spelling d h1 h2) _ 0

/-- Witness for C3 (amended): the header `["", "23/1/2026"]` for 2026-01-23,
with the lookup landing on column 2. -/
theorem date_column_first_match_witness :
    get_column_for_date ⟨"t", [["", "23/1/2026"]]⟩ ⟨2026, 1, 23⟩ =
      (List.findIdx? (spec_col_match ⟨2026, 1, 23⟩)
        (header_row ⟨"t", [["", "23/1/2026"]]⟩)).map (fun i => i + 1) :=
  (date_column_first_match ⟨"t", [["", "23/1/2026"]]⟩ ⟨2026, 1, 23⟩
    (by decide) (by decide)).1

/-! ## Mark/ensure analysis (C4, C5, C6, C10) -/

theorem count_writes_append_write (l : List SheetOp) (w : String) (r c : Nat)
    (v : String) :
    count_writes (l ++ [SheetOp.writeCell w r c v]) = count_writes l + 1 := by
  simp [count_writes, List.filter_append]

theorem count_opens_append_write (l : List SheetOp) (w : String) (r c : Nat)
    (v : String) :
    count_opens (l ++ [SheetOp.writeCell w r c v]) = count_opens l := by
  simp [count_opens, List.filter_append]

/-- The method `_ensure_correct_worksheet` never writes and only ever touches the
cached-handle field of the state. -/
theorem ensure_preserves (st : SheetsState) (d : Date) :
    count_writes (ensure_correct_worksheet st d).2.2 = 0 ∧
    (ensure_correct_worksheet st d).2.1.tabs = st.tabs ∧
    (ensure_correct_worksheet st d).2.1.write_fails = st.write_fails ∧
    (ensure_correct_worksheet st d).2.1.auto_detect_month =
      st.auto_detect_month := by
  simp only [ensure_correct_worksheet]
  by_cases hauto : st.auto_detect_month = false
  · rw [if_pos hauto]
    exact ⟨rfl, rfl, rfl, rfl⟩
  · rw [if_neg hauto]
    by_cases hcur : st.current = some (get_sheet_name_for_date d)
    · rw [if_pos hcur]
      exact ⟨rfl, rfl, rfl, rfl⟩
    · rw [if_neg hcur]
      cases hf : find_worksheet st.tabs (get_sheet_name_for_date d) with
      | some w => exact ⟨rfl, rfl, rfl, rfl⟩
      | none => exact ⟨rfl, rfl, rfl, rfl⟩

/-- Cache hit: nothing happens. -/
theorem ensure_hit (st : SheetsState) (d : Date)
    (hauto : st.auto_detect_month = true)
    (hcur : st.current = some (get_sheet_name_for_date d)) :
    ensure_correct_worksheet st d = (true, st, []) := by
  simp only [ensure_correct_worksheet]
  rw [if_neg (by simp [hauto]), if_pos hcur]

/-- Cache miss: exactly one open-tab call, replacing the cache on success and
failing (cache unchanged) when the tab does not exist. -/
theorem ensure_miss (st : SheetsState) (d : Date)
    (hauto : st.auto_detect_month = true)
    (hcur : st.current ≠ some (get_sheet_name_for_date d)) :
    (ensure_correct_worksheet st d).2.2 =
      [SheetOp.openTab (get_sheet_name_for_date d)] ∧
    ((find_worksheet st.tabs (get_sheet_name_for_date d)).isSome = true →
      ensure_correct_worksheet st d =
        (true, { st with current := some (get_sheet_name_for_date d) },
         [SheetOp.openTab (get_sheet_name_for_date d)])) ∧
    (find_worksheet st.tabs (get_sheet_name_for_date d) = none →
      ensure_correct_worksheet st d =
        (false, st, [SheetOp.openTab (get_sheet_name_for_date d)])) := by
  simp only [ensure_correct_worksheet]
  rw [if_neg (by simp [hauto]), if_neg hcur]
  cases hf : find_worksheet st.tabs (get_sheet_name_for_date d) with
  | some w => exact ⟨rfl, fun _ => rfl, fun hn => nomatch hn⟩
  | none => exact ⟨rfl, fun hs => by simp at hs, fun _ => rfl⟩

/-- A successful ensure leaves the cache pointing at the required tab (when
auto-detection is on, as it always is in this deployment). -/
theorem ensure_success_current (st : SheetsState) (d : Date)
    (hauto : st.auto_detect_month = true)
    (hs : (ensure_correct_worksheet st d).1 = true) :
    (ensure_correct_worksheet st d).2.1.current =
      some (get_sheet_name_for_date d) := by
  by_cases hcur : st.current = some (get_sheet_name_for_date d)
  · rw [ensure_hit st d hauto hcur]
    exact hcur
  · rcases ensure_miss st d hauto hcur with ⟨_, h2, h3⟩
    cases hf : find_worksheet st.tabs (get_sheet_name_for_date d) with
    | some w =>
      rw [h2 (by simp [hf])]
    | none =>
      rw [h3 hf] at hs
      exact absurd hs (by simp)

/-- Shape analysis of one `mark_order` call: a failing call returns the
post-ensure state and exactly ensure's operations; a successful call appends
exactly one effective write. -/
theorem mark_order_cases (st : SheetsState) (u : String) (h : Bool)
    (d : Date) :
    ((mark_order st u h d).1 = false ∧
     (mark_order st u h d).2.1 = (ensure_correct_worksheet st d).2.1 ∧
     (mark_order st u h d).2.2 = (ensure_correct_worksheet st d).2.2) ∨
    ((mark_order st u h d).1 = true ∧
     (ensure_correct_worksheet st d).1 = true ∧
     (mark_order st u h d).2.1.current =
       (ensure_correct_worksheet st d).2.1.current ∧
     (mark_order st u h d).2.1.auto_detect_month =
       (ensure_correct_worksheet st d).2.1.auto_detect_month ∧
     (mark_order st u h d).2.1.write_fails =
       (ensure_correct_worksheet st d).2.1.write_fails ∧
     ∃ w r c v,
       (mark_order st u h d).2.2 =
         (ensure_correct_worksheet st d).2.2 ++ [SheetOp.writeCell w r c v]) := by
  simp only [mark_order]
  rcases hE : ensure_correct_worksheet st d with ⟨ok, st1, ops⟩
  cases ok with
  | false => simp
  | true =>
    simp only [Bool.true_eq_false, if_false]
    cases hW : current_worksheet st1 with
    | none => simp
    | some ws =>
      simp only []
      cases hR : get_row_for_user ws u with
      | none => simp
      | some r =>
        simp only []
        cases hC : get_column_for_date ws d with
        | none => simp
        | some c =>
          simp only []
          by_cases hwf : st1.write_fails = true
          · rw [if_pos hwf]
            simp
          · rw [if_neg hwf]
            right
            refine ⟨?_, ?_, ?_, ?_, ?_, ws.title, r, c,
              if h then "TRUE" else "FALSE", ?_⟩ <;> simp

/-- The specification-side success condition for C5 (amended): the tab was
selected, the cached worksheet resolved, both lookups succeeded, and the
write call did not error. -/
def mark_success (st : SheetsState) (u : String) (d : Date) : Bool :=
  (ensure_correct_worksheet st d).1 &&
    (match current_worksheet (ensure_correct_worksheet st d).2.1 with
     | none => false
     | some ws =>
       (get_row_for_user ws u).isSome && (get_column_for_date ws d).isSome) &&
    !st.write_fails

/-- Counterexample to C5 as stated: two calls failing at *different* steps —
state A's tab lacks the user `"Chi"` (user lookup fails), state B has the
user but no 2026-01-23 header (column lookup fails) — return the *same*
value `false`, so the caller cannot tell the failure kinds apart from the
returned value. -/
theorem mark_failure_indistinguishable :
    (mark_order ⟨[⟨"Tháng 1", [["", "23/1/2026"], ["An", ""]]⟩],
        none, true, false⟩ "Chi" true ⟨2026, 1, 23⟩).1 = false ∧
    (mark_order ⟨[⟨"Tháng 1", [["", ""], ["An", ""]]⟩],
        none, true, false⟩ "An" true ⟨2026, 1, 23⟩).1 = false ∧
    get_row_for_user ⟨"Tháng 1", [["", "23/1/2026"], ["An", ""]]⟩ "Chi" =
      none ∧
    get_row_for_user ⟨"Tháng 1", [["", ""], ["An", ""]]⟩ "An" = some 2 ∧
    get_column_for_date ⟨"Tháng 1", [["", ""], ["An", ""]]⟩ ⟨2026, 1, 23⟩ =
      none ∧
    get_column_for_date ⟨"Tháng 1", [["", "23/1/2026"], ["An", ""]]⟩
      ⟨2026, 1, 23⟩ = some 2 := by
  decide

/-- C5 (amended): `mark_order` never raises past its boundary — it is a
total function into a plain boolean, returning `true` exactly when every
step succeeds and the single undiscriminated value `false` on every failure
(tab missing, unusable handle, user missing, column missing, or the write
call erroring), so the failure kinds are not distinguishable from the
returned value. -/
theorem mark_returns_plain_bool (st : SheetsState) (u : String) (h : Bool)
    (d : Date) :
    (mark_order st u h d).1 = mark_success st u d := by
  have hwf : (ensure_correct_worksheet st d).2.1.write_fails =
      st.write_fails := (ensure_preserves st d).2.2.1
  simp only [mark_order, mark_success]
  rcases hE : ensure_correct_worksheet st d with ⟨ok, st1, ops⟩
  rw [hE] at hwf
  simp only at hwf
  cases ok with
  | false => simp
  | true =>
    simp only [Bool.true_eq_false, if_false, Bool.true_and]
    cases hW : current_worksheet st1 with
    | none => simp
    | some ws =>
      simp only []
      cases hR : get_row_for_user ws u with
      | none => simp
      | some r =>
        cases hC : get_column_for_date ws d with
        | none => simp
        | some c =>
          dsimp only
          rw [← hwf]
          cases hwf2 : st1.write_fails with
          | true => simp [hwf2]
          | false => simp [hwf2]

/-! ## C4: the end-to-end mark scenario and the write discipline -/

def scenario_tab : Worksheet :=
  ⟨"Tháng 1", [["", "23/1/2026"], ["An", ""], ["Binh", "TRUE"]]⟩

def scenario_state : SheetsState := ⟨[scenario_tab], none, true, false⟩

def scenario_state_mistitled : SheetsState :=
  ⟨[⟨"Month 1", [["", "23/1/2026"], ["An", ""], ["Binh", "TRUE"]]⟩],
   none, true, false⟩

/-- Counterexample to C4 as stated: with the tab titled `"Month 1"` (the
claim's literal tab name), `mark("An", true, 2026-01-23)` does *not* succeed —
the code looks for the tab `"Tháng 1"`, fails the tab step, and writes
nothing. -/
theorem mark_scenario_counterexample :
    (mark_order scenario_state_mistitled "An" true ⟨2026, 1, 23⟩).1 = false ∧
    count_writes
      (mark_order scenario_state_mistitled "An" true ⟨2026, 1, 23⟩).2.2 =
      0 := by
  decide

/-- C4 (amended): `mark_order` performs its steps in order, short-circuiting
on the first failure: every successful call performs exactly one effective
cell write and every failing call performs zero writes and leaves every tab
unchanged.  In the spec's scenario with the tab named `"Tháng 1"` (the name
the tab-naming function produces), header `["", "23/1/2026"]` and rows
`[["An", ""], ["Binh", "TRUE"]]`: `mark("An", true, 2026-01-23)` writes
`"TRUE"` to row 2, column 2 and succeeds, while `mark("Chi", true,
2026-01-23)` fails (no row matches `"Chi"`) and writes nothing. -/
theorem mark_write_discipline (st : SheetsState) (u : String) (h : Bool)
    (d : Date) :
    ((mark_order st u h d).1 = true →
      count_writes (mark_order st u h d).2.2 = 1) ∧
    ((mark_order st u h d).1 = false →
      count_writes (mark_order st u h d).2.2 = 0 ∧
      (mark_order st u h d).2.1.tabs = st.tabs) ∧
    mark_order scenario_state "An" true ⟨2026, 1, 23⟩ =
      (true,
       ⟨[⟨"Tháng 1", [["", "23/1/2026"], ["An", "TRUE"], ["Binh", "TRUE"]]⟩],
        some "Tháng 1", true, false⟩,
       [SheetOp.openTab "Tháng 1", SheetOp.writeCell "Tháng 1" 2 2 "TRUE"]) ∧
    (mark_order scenario_state "Chi" true ⟨2026, 1, 23⟩).1 = false ∧
    count_writes (mark_order scenario_state "Chi" true ⟨2026, 1, 23⟩).2.2 =
      0 ∧
    (mark_order scenario_state "Chi" true ⟨2026, 1, 23⟩).2.1.tabs =
      scenario_state.tabs ∧
    get_row_for_user scenario_tab "Chi" = none := by
  refine ⟨?_, ?_, by decide, by decide, by decide, by decide, by decide⟩
  · intro hs
    rcases mark_order_cases st u h d with
      ⟨hf, _, _⟩ | ⟨_, _, _, _, _, w, r, c, v, hops⟩
    · rw [hf] at hs
      exact absurd hs (by simp)
    · rw [hops, count_writes_append_write, (ensure_preserves st d).1]
  · intro hf
    rcases mark_order_cases st u h d with ⟨_, hst, hops⟩ | ⟨ht, _⟩
    · constructor
      · rw [hops]
        exact (ensure_preserves st d).1
      · rw [hst]
        exact (ensure_preserves st d).2.1
    · rw [ht] at hf
      exact absurd hf (by simp)

/-- Witness for C4 (amended): the successful scenario call performs exactly
one write. -/
theorem mark_write_discipline_witness :
    count_writes (mark_order scenario_state "An" true ⟨2026, 1, 23⟩).2.2 =
      1 :=
  (mark_write_discipline scenario_state "An" true ⟨2026, 1, 23⟩).1 (by decide)

/-! ## C6: the tab-handle cache -/

/-- C6: with month auto-detection on (as it always is in this deployment),
`_ensure_correct_worksheet` returns the state unchanged with no open-tab
call when the cached handle's title already equals the tab name for the
date; otherwise it performs exactly one open-tab call, replacing the cache
on success and failing (tab-not-found, cache unchanged) when no tab of that
name exists.  Hence after a successful `mark_order`, a second call for a
date in the same month performs no open-tab call, and a call for a date in
a different month does open its tab. -/
theorem tab_cache_reuse (st : SheetsState) (d d2 : Date) (u u2 : String)
    (h h2 : Bool) (hauto : st.auto_detect_month = true) :
    (st.current = some (get_sheet_name_for_date d) →
      ensure_correct_worksheet st d = (true, st, [])) ∧
    (st.current ≠ some (get_sheet_name_for_date d) →
      (ensure_correct_worksheet st d).2.2 =
        [SheetOp.openTab (get_sheet_name_for_date d)] ∧
      ((find_worksheet st.tabs (get_sheet_name_for_date d)).isSome = true →
        ensure_correct_worksheet st d =
          (true, { st with current := some (get_sheet_name_for_date d) },
           [SheetOp.openTab (get_sheet_name_for_date d)])) ∧
      (find_worksheet st.tabs (get_sheet_name_for_date d) = none →
        ensure_correct_worksheet st d =
          (false, st, [SheetOp.openTab (get_sheet_name_for_date d)]))) ∧
    ((mark_order st u h d).1 = true →
      (get_sheet_name_for_date d2 = get_sheet_name_for_date d →
        count_opens
          (mark_order (mark_order st u h d).2.1 u2 h2 d2).2.2 = 0) ∧
      (get_sheet_name_for_date d2 ≠ get_sheet_name_for_date d →
        SheetOp.openTab (get_sheet_name_for_date d2) ∈
          (mark_order (mark_order st u h d).2.1 u2 h2 d2).2.2)) := by
  refine ⟨fun hcur => ensure_hit st d hauto hcur,
    fun hcur => ensure_miss st d hauto hcur, ?_⟩
  intro hs
  rcases mark_order_cases st u h d with
    ⟨hf, _, _⟩ | ⟨_, hE1, hcur', hauto', _, _, _, _, _, _⟩
  · rw [hf] at hs
    exact absurd hs (by simp)
  · have hcur1 : (mark_order st u h d).2.1.current =
        some (get_sheet_name_for_date d) := by
      rw [hcur']
      exact ensure_success_current st d hauto hE1
    have hauto1 : (mark_order st u h d).2.1.auto_detect_month = true := by
      rw [hauto', (ensure_preserves st d).2.2.2]
      exact hauto
    constructor
    · intro hsame
      have hhit := ensure_hit (mark_order st u h d).2.1 d2 hauto1
        (by rw [hcur1, hsame])
      rcases mark_order_cases (mark_order st u h d).2.1 u2 h2 d2 with
        ⟨_, _, hops2⟩ | ⟨_, _, _, _, _, w, r, c, v, hops2⟩
      · rw [hops2, hhit]
        rfl
      · rw [hops2, hhit, count_opens_append_write]
        rfl
    · intro hdiff
      have hne : (mark_order st u h d).2.1.current ≠
          some (get_sheet_name_for_date d2) := by
        rw [hcur1]
        intro hcon
        exact hdiff (Option.some.inj hcon).symm
      have hmiss := (ensure_miss (mark_order st u h d).2.1 d2 hauto1 hne).1
      rcases mark_order_cases (mark_order st u h d).2.1 u2 h2 d2 with
        ⟨_, _, hops2⟩ | ⟨_, _, _, _, _, w, r, c, v, hops2⟩
      · rw [hops2, hmiss]
        exact List.mem_cons_self _ _
      · rw [hops2, hmiss]
        exact List.mem_append_left _ (List.mem_cons_self _ _)

/-- Witness for C6: with the cache already on `"Tháng 1"`, ensuring the tab
for 2026-01-23 changes nothing and performs no open-tab call. -/
theorem tab_cache_reuse_witness :
    ensure_correct_worksheet ⟨[scenario_tab], some "Tháng 1", true, false⟩
        ⟨2026, 1, 23⟩ =
      (true, ⟨[scenario_tab], some "Tháng 1", true, false⟩, []) :=
  (tab_cache_reuse ⟨[scenario_tab], some "Tháng 1", true, false⟩
    ⟨2026, 1, 23⟩ ⟨2026, 2, 23⟩ "An" "An" true true rfl).1 (by decide)

/-! ## C10: the read-only operations never re-select the tab -/

theorem get_order_status_frame (st : SheetsState) (u : String) (d : Date) :
    (get_order_status st u d).2.1 = st ∧
    (get_order_status st u d).2.2 = [] := by
  unfold get_order_status
  cases hw : current_worksheet st with
  | none => exact ⟨rfl, rfl⟩
  | some ws =>
    dsimp only
    cases hr : get_row_for_user ws u with
    | none => exact ⟨rfl, rfl⟩
    | some r =>
      dsimp only
      cases hc : get_column_for_date ws d with
      | none => exact ⟨rfl, rfl⟩
      | some c => exact ⟨rfl, rfl⟩

theorem get_daily_summary_frame (st : SheetsState) (d : Date) :
    (get_daily_summary st d).2.1 = st ∧
    (get_daily_summary st d).2.2 = [] := by
  unfold get_daily_summary
  cases hw : current_worksheet st with
  | none => exact ⟨rfl, rfl⟩
  | some ws =>
    dsimp only
    cases hc : get_column_for_date ws d with
    | none => exact ⟨rfl, rfl⟩
    | some c => exact ⟨rfl, rfl⟩

/-- The spreadsheet as the read-only operations see it: just the cached
tab. -/
def single_tab_state (ws : Worksheet) (st : SheetsState) : SheetsState :=
  ⟨[ws], some ws.title, st.auto_detect_month, st.write_fails⟩

theorem single_tab_current (ws : Worksheet) (st : SheetsState) :
    current_worksheet (single_tab_state ws st) = some ws := by
  simp [single_tab_state, current_worksheet, find_worksheet]

theorem find_worksheet_title (tabs : List Worksheet) (t : String)
    (ws : Worksheet) (h : find_worksheet tabs t = some ws) : ws.title = t := by
  have := List.find?_some h
  simpa using this

theorem current_worksheet_some (st : SheetsState) (ws : Worksheet)
    (h : current_worksheet st = some ws) : st.current = some ws.title := by
  unfold current_worksheet at h
  cases hc : st.current with
  | none =>
    rw [hc] at h
    simp at h
  | some t =>
    rw [hc] at h
    simp only [Option.some_bind] at h
    rw [find_worksheet_title _ _ _ h]

/-- C10: unlike `mark_order`, the read-only operations `get_order_status`
and `get_daily_summary` never re-select the month tab for the queried date:
for a date in a month other than the cached tab's, both answer exactly as
they would against a spreadsheet containing only the cached tab, leave the
state (in particular the cache) unchanged and perform no open or write
calls — while `mark_order` on the same state does open the queried month's
tab. -/
theorem reads_use_cached_tab (st : SheetsState) (u uu : String) (h : Bool)
    (d : Date) (ws : Worksheet)
    (hws : current_worksheet st = some ws)
    (hdiff : get_sheet_name_for_date d ≠ ws.title) :
    (get_order_status st u d).1 =
      (get_order_status (single_tab_state ws st) u d).1 ∧
    (get_order_status st u d).2.1 = st ∧
    (get_order_status st u d).2.2 = [] ∧
    (get_daily_summary st d).1 =
      (get_daily_summary (single_tab_state ws st) d).1 ∧
    (get_daily_summary st d).2.1 = st ∧
    (get_daily_summary st d).2.2 = [] ∧
    (st.auto_detect_month = true →
      SheetOp.openTab (get_sheet_name_for_date d) ∈
        (mark_order st uu h d).2.2) := by
  have hsc := single_tab_current ws st
  refine ⟨?_, (get_order_status_frame st u d).1,
    (get_order_status_frame st u d).2, ?_,
    (get_daily_summary_frame st d).1, (get_daily_summary_frame st d).2, ?_⟩
  · cases hr : get_row_for_user ws u with
    | none => simp [get_order_status, hws, hsc, hr]
    | some r =>
      cases hc : get_column_for_date ws d with
      | none => simp [get_order_status, hws, hsc, hr, hc]
      | some c => simp [get_order_status, hws, hsc, hr, hc]
  · cases hc : get_column_for_date ws d with
    | none => simp [get_daily_summary, hws, hsc, hc]
    | some c => simp [get_daily_summary, hws, hsc, hc]
  · intro hauto
    have hne : st.current ≠ some (get_sheet_name_for_date d) := by
      rw [current_worksheet_some st ws hws]
      intro hcon
      exact hdiff (Option.some.inj hcon).symm
    have hmiss := (ensure_miss st d hauto hne).1
    rcases mark_order_cases st uu h d with
      ⟨_, _, hops⟩ | ⟨_, _, _, _, _, w, r, c, v, hops⟩
    · rw [hops, hmiss]
      exact List.mem_cons_self _ _
    · rw [hops, hmiss]
      exact List.mem_append_left _ (List.mem_cons_self _ _)

/-- Witness for C10: cached tab `"Tháng 1"`, query date 2026-02-23. -/
theorem reads_use_cached_tab_witness :
    (get_order_status ⟨[scenario_tab], some "Tháng 1", true, false⟩ "An"
        ⟨2026, 2, 23⟩).2.1 =
      ⟨[scenario_tab], some "Tháng 1", true, false⟩ :=
  (reads_use_cached_tab ⟨[scenario_tab], some "Tháng 1", true, false⟩ "An"
    "An" true ⟨2026, 2, 23⟩ scenario_tab (by decide) (by decide)).2.1

end Lunch
